import Mathlib

/-!
Verification of the Daangn rental spider core logic.

Shallow embedding of `src/daagn/daagn/spiders/daangn_rental_spider.py`.

Strings are modelled as Lean `String` (lists of Unicode code points).  The
Python regex searches used by the spider are embedded as explicit left-to-right
scanners over `List Char` that mirror `re.search` semantics (leftmost match,
alternatives tried in written order with backtracking, greedy quantifiers) for
the concrete patterns appearing in the source.

Modelling notes, fixed once for the whole file:
* Python's `\s` and `str.strip()` are modelled over the ASCII whitespace
  characters (space, tab, LF, VT, FF, CR); the spider only ever feeds the
  heuristics text whose whitespace was already collapsed to ASCII spaces.
* Python's `float(...)` inside `_normalize_amount` is modelled as exact
  decimal natural-number parsing (`parseDigits?`): every call site passes the
  regex capture `[0-9]+(?:[.,][0-9]+)?` whose separators were stripped, i.e. a
  pure decimal-digit token, on which `float` is exact (the token magnitudes in
  the program stay far below 2^53) and fails exactly when a non-digit remains.
* `str(int(value))` is modelled as `Nat.repr`.
-/

namespace Daangn

/-- ASCII whitespace, the model of Python's `\s` character class. -/
def isSpaceChar (c : Char) : Bool :=
  c = ' ' || c = '\t' || c = '\n' || c = '\r' || c = '\x0b' || c = '\x0c'

/-- The model of Python's `[0-9]` character class. -/
def isDigitChar (c : Char) : Bool := c.isDigit

def dropSpaces (cs : List Char) : List Char := cs.dropWhile isSpaceChar

def takeDigits (cs : List Char) : List Char := cs.takeWhile isDigitChar

def dropDigits (cs : List Char) : List Char := cs.dropWhile isDigitChar

/-- One step of `re.sub(r"\s+", " ", s)`: each maximal whitespace run becomes
a single space.  The boolean records whether the previous character was
whitespace (i.e. we are inside a run that already emitted its space). -/
def collapseWsAux : Bool → List Char → List Char
  | _, [] => []
  | prevSpace, c :: t =>
    if isSpaceChar c then
      if prevSpace then collapseWsAux true t else ' ' :: collapseWsAux true t
    else c :: collapseWsAux false t

/-- Python `str.strip()` over the ASCII whitespace model. -/
def trimChars (cs : List Char) : List Char :=
  ((cs.dropWhile isSpaceChar).reverse.dropWhile isSpaceChar).reverse

/-- Embedding of `_clean_text` and the local `clean` helper of `parse_detail`:
`re.sub(r"\s+", " ", s or "").strip()`. -/
def cleanText (s : String) : String :=
  String.mk (trimChars (collapseWsAux false s.data))

/-- Embedding of `str.replace(" ", "")`: drop every ASCII space (only spaces, not all
whitespace), as used for `title_norm` and the heuristics' pre-pass. -/
def noSpace (s : String) : String :=
  String.mk (s.data.filter (fun c => c ≠ ' '))

/-- The local `pick_first(*vals)` of `parse_detail`: first candidate that is
truthy and whose cleaned form is non-empty, returned cleaned; `""` otherwise.
`none` models Python `None`. -/
def pickFirst : List (Option String) → String
  | [] => ""
  | none :: rest => pickFirst rest
  | some s :: rest =>
    if s ≠ "" ∧ cleanText s ≠ "" then cleanText s else pickFirst rest

/-! ## AmountNormalizer: `_normalize_amount` -/

/-- Embedding of `number.replace(",", "").replace(".", "")`. -/
def stripSeps (cs : List Char) : List Char :=
  cs.filter (fun c => c ≠ ',' && c ≠ '.')

/-- Numeric value of a decimal-digit list (most significant first). -/
def digitsVal (cs : List Char) : Nat :=
  cs.foldl (fun a c => a * 10 + (c.toNat - '0'.toNat)) 0

/-- Model of `float(<token>)` on the separator-stripped token: succeeds exactly
on non-empty all-digit tokens (see the header note on `float`). -/
def parseDigits? (cs : List Char) : Option Nat :=
  if !cs.isEmpty && cs.all isDigitChar then some (digitsVal cs) else none

/-- Embedding of `_normalize_amount(number, unit)`: strip `","`/`"."` from the number token,
parse it, apply the unit multiplier (`만` ×10000, `천` ×1000, `원`/other ×1),
return `str(int(value))`; `None` when the token is empty or unparsable. -/
def normalizeAmount (number : String) (unit : Option String) : Option String :=
  if number = "" then none
  else
    match parseDigits? (stripSeps number.data) with
    | none => none
    | some v =>
      match unit with
      | none => some (Nat.repr v)
      | some u =>
        if u = "" then some (Nat.repr v)
        else
          let u' := String.mk (trimChars u.data)
          some (Nat.repr
            (if u' = "만" then v * 10000
             else if u' = "천" then v * 1000
             else v))

/-- A non-empty all-decimal-digit string: the shape the spec calls a
"non-negative integer-valued decimal-digits string". -/
def isDigitString (s : String) : Bool :=
  !s.data.isEmpty && s.data.all isDigitChar

/-! ## Embedded regex scanners

`searchScan m` is `re.search`'s leftmost-match loop: try the anchored matcher
`m` at every position, left to right. -/

def searchScan {α : Type} (m : List Char → Option α) : List Char → Option α
  | [] => none
  | c :: t =>
    match m (c :: t) with
    | some r => some r
    | none => searchScan m t

/-- Substring containment, the effect of `re.search` on a literal pattern. -/
def containsSub (pat : List Char) : List Char → Bool
  | [] => pat.isEmpty
  | c :: t => pat.isPrefixOf (c :: t) || containsSub pat t

def containsAny (cs : List Char) (pats : List (List Char)) : Bool :=
  pats.any (fun p => containsSub p cs)

/-- Embedding of `\s*[:：]?\s*` in the amount pattern: the whitespace, colon and digit
classes are pairwise disjoint, so the greedy quantifiers and the optional
colon admit no backtracking. -/
def colonSkip (cs : List Char) : List Char :=
  match dropSpaces cs with
  | c :: t => if c = ':' ∨ c = '：' then dropSpaces t else c :: t
  | [] => []

/-- Anchored `([0-9]+(?:[.,][0-9]+)?)`: the captured group and the rest of
the input.  The optional separator group is taken exactly when it matches,
as backtracking out of it could never help a later failure (nothing after
the capture is mandatory). -/
def matchNumberGroup (cs : List Char) : Option (List Char × List Char) :=
  let ds := takeDigits cs
  if ds.isEmpty then none
  else
    match dropDigits cs with
    | c :: t =>
      if (c = '.' ∨ c = ',') ∧ ¬ (takeDigits t).isEmpty then
        some (ds ++ c :: takeDigits t, dropDigits t)
      else some (ds, c :: t)
    | [] => some (ds, [])

/-- Anchored tail of the shared amount pattern
`\s*[:：]?\s*([0-9]+(?:[.,][0-9]+)?)(만|천|원)?` (everything after the
keyword), returning the captured number group and optional unit group. -/
def matchAmountTail (cs : List Char) : Option (List Char × Option Char) :=
  match matchNumberGroup (colonSkip cs) with
  | none => none
  | some (num, r4) =>
    some (num,
      match r4 with
      | c :: _ => if c = '만' ∨ c = '천' ∨ c = '원' then some c else none
      | [] => none)

/-- Anchored match of `(kw1|kw2|...)<amount tail>`: alternatives are tried in
list order, falling through to the next alternative when the tail fails after
a keyword matched (regex backtracking). -/
def matchAmountAt : List (List Char) → List Char → Option (List Char × Option Char)
  | [], _ => none
  | kw :: rest, cs =>
    if kw.isPrefixOf cs then
      match matchAmountTail (cs.drop kw.length) with
      | some r => some r
      | none => matchAmountAt rest cs
    else matchAmountAt rest cs

/-- Embedding of `re.search` for the keyworded amount pattern. -/
def searchAmount (kws : List (List Char)) : List Char → Option (List Char × Option Char)
  | [] => none
  | c :: t =>
    match matchAmountAt kws (c :: t) with
    | some r => some r
    | none => searchAmount kws t

/-- The alternatives of `(대여비|렌탈비|대여)`, in pattern order. -/
def priceKeywords : List (List Char) := ["대여비".data, "렌탈비".data, "대여".data]

/-- The alternatives of `(보[증즈중좁줌좀]금)`: a character class is a set of
single-character alternatives, here expanded to the six keyword spellings. -/
def depositKeywords : List (List Char) :=
  ["보증금".data, "보즈금".data, "보중금".data, "보좁금".data, "보줌금".data, "보좀금".data]

/-! ## TextHeuristics: `_parse_rental_duration` -/

/-- Embedding of `re.search(r"\d+/\d+", t)`: it succeeds iff some digit is immediately followed
by `/` and a digit. -/
def hasDateLike : List Char → Bool
  | a :: b :: c :: t => (isDigitChar a && b = '/' && isDigitChar c) || hasDateLike (b :: c :: t)
  | _ => false

/-- Anchored `(\d+)\s*박\s*(\d+)\s*일`, returning group 2. -/
def matchNightsAt (cs : List Char) : Option (List Char) :=
  let ds1 := takeDigits cs
  if ds1.isEmpty then none
  else
    match dropSpaces (dropDigits cs) with
    | '박' :: t =>
      let r2 := dropSpaces t
      let ds2 := takeDigits r2
      if ds2.isEmpty then none
      else
        match dropSpaces (dropDigits r2) with
        | '일' :: _ => some ds2
        | _ => none
    | _ => none

/-- Anchored `(\d+)(?:\s*[-~]\s*\d+)?\s*일`, returning group 1.  The optional
range group is tried greedily first; if the rest then fails the engine
backtracks to the variant without it. -/
def matchDaysAt (cs : List Char) : Option (List Char) :=
  let ds := takeDigits cs
  if ds.isEmpty then none
  else
    let r := dropDigits cs
    let viaRange : Option (List Char) :=
      match dropSpaces r with
      | c :: t =>
        if c = '-' ∨ c = '~' then
          let r2 := dropSpaces t
          if (takeDigits r2).isEmpty then none
          else
            match dropSpaces (dropDigits r2) with
            | '일' :: _ => some ds
            | _ => none
        else none
      | [] => none
    match viaRange with
    | some res => some res
    | none =>
      match dropSpaces r with
      | '일' :: _ => some ds
      | _ => none

/-- Anchored `(\d+)\s*주(?:일)?`, returning group 1. -/
def matchWeeksAt (cs : List Char) : Option (List Char) :=
  let ds := takeDigits cs
  if ds.isEmpty then none
  else
    match dropSpaces (dropDigits cs) with
    | '주' :: _ => some ds
    | _ => none

/-- Anchored `(\d+)\s*시간`, returning group 1. -/
def matchHoursAt (cs : List Char) : Option (List Char) :=
  let ds := takeDigits cs
  if ds.isEmpty then none
  else
    match dropSpaces (dropDigits cs) with
    | '시' :: '간' :: _ => some ds
    | _ => none

/-- Embedding of `_parse_rental_duration(text)`: ordered first-match-wins rules over the
space-removed text; default `"1일"`. -/
def parseRentalDuration (text : String) : String :=
  if text = "" then "1일"
  else
    let t := text.data.filter (fun c => c ≠ ' ')
    if hasDateLike t then "1일"
    else
      match searchScan matchNightsAt t with
      | some ds2 => String.mk ds2 ++ "일"
      | none =>
        match searchScan matchDaysAt t with
        | some ds => String.mk ds ++ "일"
        | none =>
          if containsAny t ["하루".data, "당일".data] then "1일"
          else
            match searchScan matchWeeksAt t with
            | some ds => Nat.repr (digitsVal ds * 7) ++ "일"
            | none =>
              match searchScan matchHoursAt t with
              | some ds =>
                let hours := digitsVal ds
                if hours < 24 then Nat.repr hours ++ "시간"
                else Nat.repr (max 1 (hours / 24)) ++ "일"
              | none =>
                if containsAny t ["한달".data, "1개월".data, "30일".data] then "30일"
                else "1일"

/-! ## TextHeuristics: `_parse_deposit`, `_parse_purchase_age`,
`_parse_damage_policy` -/

/-- Turn a captured optional single-character unit group into the string
Python hands to `_normalize_amount` as `m.group(3)`. -/
def unitStr (u : Option Char) : Option String := u.map (fun c => String.mk [c])

/-- Embedding of `_parse_deposit(text)`: search the deposit-keyword amount pattern; on a
match, `_normalize_amount(m.group(2), m.group(3))` (which may in principle be
`None`); otherwise the literal `"0"`. -/
def parseDeposit (text : String) : Option String :=
  match searchAmount depositKeywords text.data with
  | some (num, u) => normalizeAmount (String.mk num) (unitStr u)
  | none => some "0"

/-- The alternatives of `(일|주|개월|달|년)` (pairwise distinct first
characters, so order is immaterial); returns the captured unit. -/
def matchUnitAt : List Char → Option (List Char)
  | '일' :: _ => some ['일']
  | '주' :: _ => some ['주']
  | '개' :: '월' :: _ => some ['개', '월']
  | '달' :: _ => some ['달']
  | '년' :: _ => some ['년']
  | _ => none

/-- Anchored `(\d+)(일|주|개월|달|년)전`, returning groups 1 and 2. -/
def matchAgoAt (cs : List Char) : Option (List Char × List Char) :=
  let ds := takeDigits cs
  if ds.isEmpty then none
  else
    let r := dropDigits cs
    match matchUnitAt r with
    | some u =>
      match r.drop u.length with
      | '전' :: _ => some (ds, u)
      | _ => none
    | none => none

/-- Anchored `(\d+)(일|주|개월|달|년)` (the tail of the "purchased/used for"
pattern), returning groups 3 and 4. -/
def matchNumUnit (cs : List Char) : Option (List Char × List Char) :=
  let ds := takeDigits cs
  if ds.isEmpty then none
  else
    match matchUnitAt (dropDigits cs) with
    | some u => some (ds, u)
    | none => none

/-- Anchored `kw(한지)?(\d+)(일|주|개월|달|년)` for one keyword alternative.
The optional `한지` is taken greedily; if the tail then fails, backtracking
retries without it. -/
def matchSinceKw (kw : List Char) (cs : List Char) : Option (List Char × List Char) :=
  if kw.isPrefixOf cs then
    let r := cs.drop kw.length
    let withHanji :=
      if "한지".data.isPrefixOf r then matchNumUnit (r.drop 2) else none
    match withHanji with
    | some x => some x
    | none => matchNumUnit r
  else none

/-- Anchored `(구매|사용)(한지)?(\d+)(일|주|개월|달|년)`. -/
def matchSinceAt (cs : List Char) : Option (List Char × List Char) :=
  match matchSinceKw "구매".data cs with
  | some x => some x
  | none => matchSinceKw "사용".data cs

/-- Anchored `(20\d{2})년(형|식)?`, returning group 1 and group 2 (as `""`
when absent, matching `m.group(2) or ''`). -/
def matchModelYearAt : List Char → Option (List Char × String)
  | '2' :: '0' :: a :: b :: '년' :: rest =>
    if isDigitChar a && isDigitChar b then
      some (['2', '0', a, b],
        match rest with
        | '형' :: _ => "형"
        | '식' :: _ => "식"
        | _ => "")
    else none
  | _ => none

/-- Embedding of `_parse_purchase_age(text)`: ordered rules over the space-removed text;
default `""`. -/
def parsePurchaseAge (text : String) : String :=
  let t := text.data.filter (fun c => c ≠ ' ')
  if containsSub "며칠전".data t then "며칠 전"
  else
    match searchScan matchAgoAt t with
    | some (n, u) => String.mk n ++ String.mk u ++ " 전"
    | none =>
      match searchScan matchSinceAt t with
      | some (n, u) => String.mk n ++ String.mk u
      | none =>
        if containsSub "작년".data t then "작년"
        else if containsSub "올해".data t || containsSub "금년".data t then "올해"
        else
          match searchScan matchModelYearAt t with
          | some (y, suf) => String.mk y ++ "년" ++ suf
          | none =>
            if containsAny t ["얼마안".data, "거의안".data, "새것같".data] then "최근"
            else ""

/-- Anchored `a/?s` under `re.I`: `a`, an optional `/`, then `s`.  When the
second character is `/` the optional slash must be taken (skipping it would
put `/` where `s` is required), so no further backtracking arises. -/
def matchASAt : List Char → Bool
  | a :: '/' :: s :: _ => (a = 'a' || a = 'A') && (s = 's' || s = 'S')
  | a :: s :: _ => (a = 'a' || a = 'A') && (s = 's' || s = 'S')
  | _ => false

def scanAS : List Char → Bool
  | [] => false
  | c :: t => matchASAt (c :: t) || scanAS t

/-- Embedding of `_parse_damage_policy(text)`:
`bool(re.search(r"(파손|분실|수리비|a/?s|실비|청구)", text, re.I))`. -/
def parseDamagePolicy (text : String) : Bool :=
  containsAny text.data
    ["파손".data, "분실".data, "수리비".data, "실비".data, "청구".data]
  || scanAS text.data

/-! ## `parse_detail`: reconciliation, filtering, record emission

The CSS/JSON extraction layer is the spec's external collaborator; a
`DetailPage` carries the raw candidate strings that layer hands the core,
named after the local variables of `parse_detail`.  `none` models Python
`None` (a selector `.get()` miss, or a JSON-LD field that resolved to
`None`); `ldPrice` is always a string because the source wraps it in
`str(...)`. -/

structure DetailPage where
  ogTitle : Option String
  ogUrl : Option String
  canonical : Option String
  metaPrice : Option String
  articleSection : Option String
  ldName : Option String
  ldPrice : String
  ldCategory : Option String
  h1Title : Option String
  priceText : Option String
  catTexts : List String
  descParts : List String
  url : String
deriving DecidableEq, Repr

/-- The emitted item dictionary.  `rental_price` is `Option String` because
the fallback branch assigns `_normalize_amount`'s return, typed `str|None`. -/
structure ListingRecord where
  product_name : String
  rental_price : Option String
  post_link : String
  category : String
  rental_duration : String
  deposit : Option String
  purchase_age : Option String
  damage_policy : Bool
deriving DecidableEq, Repr

/-- Embedding of `product_name = pick_first(og_title, ld_name, h1_title)`. -/
def reconciledName (p : DetailPage) : String :=
  pickFirst [p.ogTitle, p.ldName, p.h1Title]

/-- Embedding of `rental_price = pick_first(meta_price, ld_price, price_text)`. -/
def reconciledPrice (p : DetailPage) : String :=
  pickFirst [p.metaPrice, some p.ldPrice, p.priceText]

/-- Embedding of `post_link = pick_first(canonical, og_url, response.url)`. -/
def reconciledLink (p : DetailPage) : String :=
  pickFirst [p.canonical, p.ogUrl, some p.url]

/-- Embedding of `cat_texts = [clean(x) for x in cat_texts if clean(x)]`;
`cat_guess = cat_texts[-1] if cat_texts else ""`. -/
def catGuess (p : DetailPage) : String :=
  ((p.catTexts.map cleanText).filter (fun s => s ≠ "")).getLastD ""

/-- Embedding of `category = pick_first(ld_category, article_section, cat_guess)`. -/
def reconciledCategory (p : DetailPage) : String :=
  pickFirst [p.ldCategory, p.articleSection, some (catGuess p)]

/-- Embedding of `desc = clean(" ".join([p for p in desc_parts if clean(p)]))`. -/
def descOf (p : DetailPage) : String :=
  cleanText (String.intercalate " " (p.descParts.filter (fun s => cleanText s ≠ "")))

/-- The category exclusion list of `parse_detail`. -/
def excludedCategories : List String := ["티켓/교환권", "삽니다", "무료나눔"]

/-- Embedding of `not rental_price or rental_price in ["0", "0원", "가격 없음"]`. -/
def isZeroLikePrice (s : String) : Bool :=
  s = "" || s ∈ ["0", "0원", "가격 없음"]

/-- The price-fallback branch: search the description for
`(대여비|렌탈비|대여)\s*[:：]?\s*([0-9]+(?:[.,][0-9]+)?)(만|천|원)?`; on a
match normalize the captured amount, otherwise `"0"`. -/
def fallbackPrice (p : DetailPage) : Option String :=
  match searchAmount priceKeywords (descOf p).data with
  | some (num, u) => normalizeAmount (String.mk num) (unitStr u)
  | none => some "0"

/-- Embedding of `self.title_re.search(title_norm)` for the default
`title_keywords="대여|렌탈"` pattern: substring containment of either
keyword. -/
def defaultTitleMatch (s : String) : Bool :=
  containsSub "대여".data s.data || containsSub "렌탈".data s.data

/-- The item dictionary `parse_detail` yields for a page that passed both
filters.  (In the source the duration is computed between the two filter
checks; all these computations are pure, so gathering them here is
behavior-identical.) -/
def mkRecord (p : DetailPage) : ListingRecord :=
  let rentalDuration := parseRentalDuration (reconciledName p ++ " " ++ descOf p)
  let purchaseAge := parsePurchaseAge (descOf p)
  { product_name := reconciledName p
    rental_price :=
      if isZeroLikePrice (reconciledPrice p) then fallbackPrice p
      else some (reconciledPrice p)
    post_link := reconciledLink p
    category := reconciledCategory p
    rental_duration := if rentalDuration = "" then "1일" else rentalDuration
    deposit := (parseDeposit (descOf p)).bind (fun s => if s = "" then none else some s)
    purchase_age := if purchaseAge = "" then none else some purchaseAge
    damage_policy := parseDamagePolicy (descOf p) }

/-- Embedding of `parse_detail(response)`, parametrized by the truthiness of the configured
compiled title pattern's `search` (`titleMatch`).  Returns `none` exactly when
the source hits one of its two logged `return` skips, otherwise the single
yielded item. -/
def parseDetail (titleMatch : String → Bool) (p : DetailPage) : Option ListingRecord :=
  if !titleMatch (noSpace (reconciledName p)) then none
  else if reconciledCategory p ∈ excludedCategories then none
  else some (mkRecord p)

/-! ## Concrete detail pages used as explicit inputs -/

/-- A detail page with no metadata/structured price whose visible price
element reads `"15,000원"`. -/
def c2page : DetailPage :=
  { ogTitle := some "캠핑 의자 대여", ogUrl := none, canonical := none
    metaPrice := none, articleSection := none, ldName := none, ldPrice := ""
    ldCategory := none, h1Title := none, priceText := some "15,000원"
    catTexts := [], descParts := [], url := "https://y" }

/-- The record `parse_detail` emits for `c2page`. -/
def c2rec : ListingRecord :=
  { product_name := "캠핑 의자 대여", rental_price := some "15,000원"
    post_link := "https://y", category := "", rental_duration := "1일"
    deposit := some "0", purchase_age := none, damage_policy := false }

/-- A detail page with no price from any source, whose description contains
`"대여비 15000원"`. -/
def c3page : DetailPage :=
  { ogTitle := some "텐트 대여", ogUrl := none, canonical := none
    metaPrice := none, articleSection := none, ldName := none, ldPrice := ""
    ldCategory := none, h1Title := none, priceText := none
    catTexts := [], descParts := ["대여비 15000원"], url := "https://x" }

/-- The record `parse_detail` emits for `c3page`. -/
def c3rec : ListingRecord :=
  { product_name := "텐트 대여", rental_price := some "15000"
    post_link := "https://x", category := "", rental_duration := "1일"
    deposit := some "0", purchase_age := none, damage_policy := false }

/-- A detail page whose description contains a deposit mention. -/
def c8page : DetailPage :=
  { ogTitle := some "빔프로젝터 렌탈", ogUrl := none, canonical := none
    metaPrice := none, articleSection := none, ldName := none, ldPrice := ""
    ldCategory := none, h1Title := none, priceText := none
    catTexts := [], descParts := ["보증금 1.5만"], url := "https://z" }

/-- The record `parse_detail` emits for `c8page`. -/
def c8rec : ListingRecord :=
  { product_name := "빔프로젝터 렌탈", rental_price := some "0"
    post_link := "https://z", category := "", rental_duration := "1일"
    deposit := some "150000", purchase_age := none, damage_policy := false }

/-- A detail page whose three product-name sources are all empty or
whitespace-only. -/
def c10page : DetailPage :=
  { ogTitle := some "   ", ogUrl := none, canonical := none
    metaPrice := some "12000", articleSection := some "가전"
    ldName := none, ldPrice := "12000", ldCategory := none
    h1Title := some "", priceText := none
    catTexts := ["가전"], descParts := ["상태 좋아요"], url := "https://w" }

/-! ## Invocation model for the purity claim

One `HCall` is one invocation of a reconciliation or text-heuristic function
on its input; `applyCall` runs it (boolean results are rendered as strings so
all calls share a result type). -/

inductive HCall where
  | durationCall (t : String)
  | depositCall (t : String)
  | ageCall (t : String)
  | damageCall (t : String)
  | amountCall (number : String) (unit : Option String)
  | reconcileCall (vals : List (Option String))
deriving DecidableEq, Repr

def applyCall : HCall → Option String
  | .durationCall t => some (parseRentalDuration t)
  | .depositCall t => parseDeposit t
  | .ageCall t => some (parsePurchaseAge t)
  | .damageCall t => some (if parseDamagePolicy t then "True" else "False")
  | .amountCall n u => normalizeAmount n u
  | .reconcileCall vs => some (pickFirst vs)

/-- A sequence of invocations, in the order they are made. -/
def runCalls (calls : List HCall) : List (Option String) :=
  calls.map applyCall

/-! ## CrawlController: pagination

`__init__` sets `self.page = 1` and puts the page-1 listing URL in
`start_urls` unconditionally; each `parse` of a listing response runs
`self.page += 1; if self.page <= self.max_pages: <request next page>`.
`crawlGo fuel maxPages page` unrolls that loop from counter value `page`;
the counter strictly increases each step and stops once it exceeds
`maxPages`, so `(maxPages - 1).toNat` steps of fuel are exact
(`crawlGo_length` below proves the run is fuel-insensitive beyond that). -/

def crawlGo : Nat → Int → Int → List Int
  | 0, _, _ => []
  | fuel + 1, maxPages, page =>
    let p := page + 1
    if p ≤ maxPages then p :: crawlGo fuel maxPages p else []

/-- The page numbers of all listing-page requests a crawl with the given
`max_pages` issues, in order, assuming every page load succeeds: the
unconditional page-1 start request, then the pagination follow-ups. -/
def listingRequests (maxPages : Int) : List Int :=
  1 :: crawlGo (maxPages - 1).toNat maxPages 1

end Daangn

open Daangn

/-- C1. The spec's three `normalize` examples, as stated.  The third is
false on the code: `_normalize_amount("10000원", "원")` reaches
`float("10000원")`, which raises `ValueError` (the separator stripping removes
only `","` and `"."`, not the unit character), so the function returns `None`,
not `"10000"`.  This counterexample proves the claimed conjunction false. -/
theorem C1_normalize_counterexample :
    ¬ (normalizeAmount "1.5" (some "만") = some "150000" ∧
       normalizeAmount "2" (some "천") = some "2000" ∧
       normalizeAmount "10000원" (some "원") = some "10000") := by
  decide

/-- C1 (amended). `normalize("1.5","만") = "150000"` (separators stripped,
digits `"15"` × 10000), `normalize("2","천") = "2000"`, and — with the number
token containing only the digits, as the capture group `[0-9]+(?:[.,][0-9]+)?`
actually produces — `normalize("10000","원") = "10000"`; on the token
`"10000원"` itself the function returns no value. -/
theorem C1_normalize_amended :
    normalizeAmount "1.5" (some "만") = some "150000" ∧
    normalizeAmount "2" (some "천") = some "2000" ∧
    normalizeAmount "10000" (some "원") = some "10000" ∧
    normalizeAmount "10000원" (some "원") = none := by
  decide

/-- C4. `_parse_rental_duration` applies its ordered rules first-match-wins
over space-removed text: any text containing a date-like `N/N` pattern (after
space removal) yields `"1일"`, as does empty text, and the spec's examples
hold — `"2박3일" ↦ "3일"` (nights/days rule), `"6시간" ↦ "6시간"` and
`"25시간" ↦ "1일"` (hours rule, `max(1, hours // 24)` days at 24 hours and
above), `"8/30 대여" ↦ "1일"` (date-like guard). -/
theorem C4_parse_duration_examples :
    (∀ t : String, hasDateLike (t.data.filter (fun c => c ≠ ' ')) = true →
        parseRentalDuration t = "1일") ∧
    parseRentalDuration "2박3일" = "3일" ∧
    parseRentalDuration "6시간" = "6시간" ∧
    parseRentalDuration "25시간" = "1일" ∧
    parseRentalDuration "8/30 대여" = "1일" ∧
    parseRentalDuration "" = "1일" := by
  refine ⟨?_, by decide, by decide, by decide, by decide, by decide⟩
  intro t h
  unfold parseRentalDuration
  by_cases ht : t = ""
  · subst ht; rfl
  · rw [if_neg ht]
    simp only [h, if_true, if_pos]

/-- Instantiation of the date-like guard of `C4_parse_duration_examples` at
`"위스키 잔 8/30 대여"`. -/
theorem C4_witness : parseRentalDuration "위스키 잔 8/30 대여" = "1일" :=
  C4_parse_duration_examples.1 "위스키 잔 8/30 대여" (by decide)

/-- C6. With `max_pages = 5` the crawl issues exactly 5 listing-page
requests, pages 1 through 5 in order: the unconditional page-1 start request
plus the `parse` follow-ups, which stop once the counter exceeds
`max_pages`.  Detail links play no role in `listingRequests` (the model of
the pagination logic), so the count is independent of them. -/
theorem C6_five_pages :
    listingRequests 5 = [1, 2, 3, 4, 5] ∧ (listingRequests 5).length = 5 := by
  decide

namespace Daangn

/-- Each pagination step strictly increases the counter and the loop stops as
soon as it passes `maxPages`, so with any sufficient fuel the run from counter
`page` visits exactly the pages `page+1 .. maxPages`. -/
theorem crawlGo_length : ∀ (fuel : Nat) (maxPages page : Int),
    (maxPages - page).toNat ≤ fuel →
    (crawlGo fuel maxPages page).length = (maxPages - page).toNat := by
  intro fuel
  induction fuel with
  | zero =>
    intro maxPages page h
    simp only [crawlGo, List.length_nil]
    omega
  | succ fuel ih =>
    intro maxPages page h
    simp only [crawlGo]
    by_cases hle : page + 1 ≤ maxPages
    · simp only [if_pos hle, List.length_cons]
      rw [ih maxPages (page + 1) (by omega)]
      omega
    · simp only [if_neg hle, List.length_nil]
      omega

end Daangn

/-- C9. The page-1 listing request is issued unconditionally at
construction (`start_urls` is built with `page=1` before any `max_pages`
check), so for every `max_pages` value — including 0 and negatives — the
first request exists and the total number of listing-page requests is
`max(1, max_pages)`. -/
theorem C9_request_count (maxPages : Int) :
    (listingRequests maxPages).head? = some 1 ∧
    (listingRequests maxPages).length = (max 1 maxPages).toNat := by
  constructor
  · rfl
  · show (1 :: crawlGo (maxPages - 1).toNat maxPages 1).length = (max 1 maxPages).toNat
    rw [List.length_cons, Daangn.crawlGo_length (maxPages - 1).toNat maxPages 1 (by omega)]
    omega

namespace Daangn

/-- A candidate that is `None`, empty, or cleans to empty is skipped by
`pick_first`. -/
theorem pickFirst_cons_skip (v : Option String) (rest : List (Option String))
    (h : cleanText (v.getD "") = "") : pickFirst (v :: rest) = pickFirst rest := by
  cases v with
  | none => rfl
  | some s =>
    simp only [Option.getD_some] at h
    simp only [pickFirst]
    rw [if_neg]
    rintro ⟨-, h2⟩
    exact h2 h

end Daangn

/-- C5. A detail page produces no record iff the filter rejects it:
the whitespace-removed reconciled product name fails the configured title
pattern, or the reconciled category is one of `"티켓/교환권"`, `"삽니다"`,
`"무료나눔"`; otherwise `parse_detail` yields exactly the one record
`mkRecord p` (rejections are early `return`s — skips, not errors). -/
theorem C5_skip_iff (tm : String → Bool) (p : DetailPage) :
    parseDetail tm p = none ↔
      (tm (noSpace (reconciledName p)) = false ∨
       reconciledCategory p ∈ excludedCategories) := by
  unfold parseDetail
  cases htm : tm (noSpace (reconciledName p)) <;>
    by_cases hc : reconciledCategory p ∈ excludedCategories <;>
      simp [htm, hc]

/-- C10. When all three product-name sources (metadata title,
structured-data name, visible heading) are empty or whitespace-only, the
reconciled product name is `""`; the default pattern `"대여|렌탈"` cannot
match the empty normalized title, so the page is always skipped. -/
theorem C10_blank_name_skip (p : DetailPage)
    (h1 : cleanText (p.ogTitle.getD "") = "")
    (h2 : cleanText (p.ldName.getD "") = "")
    (h3 : cleanText (p.h1Title.getD "") = "") :
    reconciledName p = "" ∧ parseDetail defaultTitleMatch p = none := by
  have hname : reconciledName p = "" := by
    unfold reconciledName
    rw [Daangn.pickFirst_cons_skip _ _ h1, Daangn.pickFirst_cons_skip _ _ h2,
      Daangn.pickFirst_cons_skip _ _ h3]
    rfl
  refine ⟨hname, ?_⟩
  unfold parseDetail
  rw [hname]
  have hdt : defaultTitleMatch (noSpace "") = false := by decide
  rw [hdt]
  rfl

/-- Instantiation of `C10_blank_name_skip` at a concrete page whose title
sources are `"   "`, `None` and `""`. -/
theorem C10_witness :
    reconciledName c10page = "" ∧ parseDetail defaultTitleMatch c10page = none :=
  C10_blank_name_skip c10page (by decide) (by decide) (by decide)

/-- C7. The reconciliation and heuristic functions are deterministic pure
functions of their input: within any sequence of invocations, two invocations
with identical calls (any positions, any order) return identical results. -/
theorem C7_pure_invocations (calls : List HCall) (i j : Nat)
    (h : calls[i]? = calls[j]?) :
    (runCalls calls)[i]? = (runCalls calls)[j]? := by
  simp only [runCalls, List.getElem?_map, h]

/-- Instantiation of `C7_pure_invocations`: the first and third calls of a
concrete interleaved sequence coincide, hence so do their results. -/
theorem C7_witness :
    (runCalls [.durationCall "2박3일", .depositCall "보증금 2만",
      .durationCall "2박3일"])[0]? =
    (runCalls [.durationCall "2박3일", .depositCall "보증금 2만",
      .durationCall "2박3일"])[2]? :=
  C7_pure_invocations _ 0 2 (by decide)

namespace Daangn

/-- A decimal digit is neither of the separator characters `stripSeps`
removes. -/
theorem digit_not_sep {c : Char} (h : isDigitChar c = true) :
    (decide (c ≠ ',') && decide (c ≠ '.')) = true := by
  by_cases h1 : c = ','
  · subst h1; exact absurd h (by decide)
  · by_cases h2 : c = '.'
    · subst h2; exact absurd h (by decide)
    · simp [h1, h2]

/-- Separator stripping leaves an all-digit token unchanged. -/
theorem stripSeps_of_digits {cs : List Char} (h : cs.all isDigitChar = true) :
    stripSeps cs = cs := by
  unfold stripSeps
  apply List.filter_eq_self.mpr
  intro a ha
  exact digit_not_sep (List.all_eq_true.mp h a ha)

/-- A separator character is removed by `stripSeps`. -/
theorem sep_char_dropped {c : Char} (h : c = '.' ∨ c = ',') :
    (decide (c ≠ ',') && decide (c ≠ '.')) = false := by
  rcases h with h | h <;> subst h <;> decide

/-- Shape of the number group captured by `[0-9]+(?:[.,][0-9]+)?`: non-empty,
made of digits and at most one interior separator, and still a non-empty
all-digit token after separator stripping. -/
theorem matchNumberGroup_num {cs num r : List Char}
    (h : matchNumberGroup cs = some (num, r)) :
    num ≠ [] ∧ num.all (fun c => isDigitChar c || c = '.' || c = ',') = true ∧
    stripSeps num ≠ [] ∧ (stripSeps num).all isDigitChar = true := by
  have hds : (takeDigits cs).all isDigitChar = true := List.all_takeWhile
  unfold matchNumberGroup at h
  by_cases hE : (takeDigits cs).isEmpty
  · simp [hE] at h
  · have hne : takeDigits cs ≠ [] := by
      intro hc; rw [hc] at hE; exact hE rfl
    simp only [hE, Bool.false_eq_true, if_false, if_neg] at h
    rcases hr3 : dropDigits cs with _ | ⟨c, t⟩ <;> rw [hr3] at h <;> dsimp only at h
    · obtain ⟨rfl, -⟩ := Prod.mk.injEq .. ▸ Option.some.inj h
      refine ⟨hne, ?_, ?_, ?_⟩
      · refine List.all_eq_true.mpr fun a ha => ?_
        simp [List.all_eq_true.mp hds a ha]
      · rw [stripSeps_of_digits hds]; exact hne
      · rw [stripSeps_of_digits hds]; exact hds
    · by_cases hc : (c = '.' ∨ c = ',') ∧ ¬ (takeDigits t).isEmpty
      · rw [if_pos hc] at h
        obtain ⟨rfl, -⟩ := Prod.mk.injEq .. ▸ Option.some.inj h
        have hds2 : (takeDigits t).all isDigitChar = true := List.all_takeWhile
        have hstrip :
            stripSeps (takeDigits cs ++ c :: takeDigits t) =
              takeDigits cs ++ takeDigits t := by
          unfold stripSeps
          rw [List.filter_append, List.filter_cons]
          rw [sep_char_dropped hc.1]
          simp only [Bool.false_eq_true, if_false, if_neg]
          have e1 := stripSeps_of_digits hds
          have e2 := stripSeps_of_digits hds2
          unfold stripSeps at e1 e2
          rw [e1, e2]
        refine ⟨by simp, ?_, ?_, ?_⟩
        · refine List.all_eq_true.mpr fun a ha => ?_
          rcases List.mem_append.mp ha with ha | ha
          · simp [List.all_eq_true.mp hds a ha]
          · rcases List.mem_cons.mp ha with rfl | ha
            · rcases hc.1 with rfl | rfl <;> decide
            · simp [List.all_eq_true.mp hds2 a ha]
        · rw [hstrip]
          simp [hne]
        · rw [hstrip, List.all_append]
          simp [hds, hds2]
      · rw [if_neg hc] at h
        obtain ⟨rfl, -⟩ := Prod.mk.injEq .. ▸ Option.some.inj h
        refine ⟨hne, ?_, ?_, ?_⟩
        · refine List.all_eq_true.mpr fun a ha => ?_
          simp [List.all_eq_true.mp hds a ha]
        · rw [stripSeps_of_digits hds]; exact hne
        · rw [stripSeps_of_digits hds]; exact hds

end Daangn

namespace Daangn

/-- The number group returned by the full amount-pattern tail has the
`matchNumberGroup_num` shape. -/
theorem matchAmountTail_num {cs num : List Char} {u : Option Char}
    (h : matchAmountTail cs = some (num, u)) :
    num ≠ [] ∧ num.all (fun c => isDigitChar c || c = '.' || c = ',') = true ∧
    stripSeps num ≠ [] ∧ (stripSeps num).all isDigitChar = true := by
  unfold matchAmountTail at h
  rcases hg : matchNumberGroup (colonSkip cs) with _ | ⟨n2, r4⟩ <;> rw [hg] at h
  · simp at h
  · dsimp only at h
    obtain ⟨rfl, -⟩ := Prod.mk.injEq .. ▸ Option.some.inj h
    exact matchNumberGroup_num hg

/-- Lifting `matchAmountTail_num` through the keyword alternation. -/
theorem matchAmountAt_num : ∀ (kws : List (List Char)) (cs num : List Char)
    (u : Option Char), matchAmountAt kws cs = some (num, u) →
    num ≠ [] ∧ num.all (fun c => isDigitChar c || c = '.' || c = ',') = true ∧
    stripSeps num ≠ [] ∧ (stripSeps num).all isDigitChar = true := by
  intro kws
  induction kws with
  | nil => intro cs num u h; simp [matchAmountAt] at h
  | cons kw rest ih =>
    intro cs num u h
    unfold matchAmountAt at h
    by_cases hp : kw.isPrefixOf cs
    · rw [if_pos hp] at h
      rcases ht : matchAmountTail (cs.drop kw.length) with _ | r <;> rw [ht] at h
      · exact ih cs num u h
      · obtain rfl : r = (num, u) := Option.some.inj h
        exact matchAmountTail_num ht
    · rw [if_neg hp] at h
      exact ih cs num u h

/-- Lifting `matchAmountAt_num` through the leftmost-match scan. -/
theorem searchAmount_num : ∀ (cs : List Char) (kws : List (List Char))
    (num : List Char) (u : Option Char), searchAmount kws cs = some (num, u) →
    num ≠ [] ∧ num.all (fun c => isDigitChar c || c = '.' || c = ',') = true ∧
    stripSeps num ≠ [] ∧ (stripSeps num).all isDigitChar = true := by
  intro cs
  induction cs with
  | nil => intro kws num u h; simp [searchAmount] at h
  | cons c t ih =>
    intro kws num u h
    unfold searchAmount at h
    rcases hm : matchAmountAt kws (c :: t) with _ | r <;> rw [hm] at h
    · exact ih kws num u h
    · obtain rfl : r = (num, u) := Option.some.inj h
      exact matchAmountAt_num kws (c :: t) num u hm

/-- Applying `Nat.digitChar` to a value below 10 yields a decimal digit. -/
theorem digitChar_isDigit {m : Nat} (h : m < 10) :
    isDigitChar (Nat.digitChar m) = true := by
  interval_cases m <;> decide

/-- The digit accumulator of `Nat.toDigitsCore` (base 10) only ever holds
decimal digits. -/
theorem toDigitsCore_all_digits : ∀ (fuel n : Nat) (acc : List Char),
    acc.all isDigitChar = true →
    (Nat.toDigitsCore 10 fuel n acc).all isDigitChar = true := by
  intro fuel
  induction fuel with
  | zero => intro n acc h; simpa [Nat.toDigitsCore] using h
  | succ fuel ih =>
    intro n acc h
    unfold Nat.toDigitsCore
    have hd : isDigitChar (Nat.digitChar (n % 10)) = true :=
      digitChar_isDigit (Nat.mod_lt _ (by decide))
    by_cases hz : n / 10 = 0
    · simp [hz, hd, h]
    · simp only [hz, if_false, if_neg]
      exact ih _ _ (by simp [hd, h])

/-- The function `Nat.toDigitsCore` never returns `[]` when given fuel or a non-empty
accumulator. -/
theorem toDigitsCore_ne_nil : ∀ (fuel n : Nat) (acc : List Char),
    acc ≠ [] ∨ fuel ≠ 0 → Nat.toDigitsCore 10 fuel n acc ≠ [] := by
  intro fuel
  induction fuel with
  | zero =>
    intro n acc h
    rcases h with h | h
    · simpa [Nat.toDigitsCore] using h
    · exact absurd rfl h
  | succ fuel ih =>
    intro n acc _
    unfold Nat.toDigitsCore
    by_cases hz : n / 10 = 0
    · simp [hz]
    · simp only [hz, if_false, if_neg]
      exact ih _ _ (Or.inl (by simp))

/-- Rendering `str(int(v))` of a natural `v` is a non-empty decimal-digits string. -/
theorem isDigitString_repr (n : Nat) : isDigitString (Nat.repr n) = true := by
  have hdata : (Nat.repr n).data = Nat.toDigitsCore 10 (n + 1) n [] := rfl
  have h1 := toDigitsCore_all_digits (n + 1) n [] rfl
  have h2 := toDigitsCore_ne_nil (n + 1) n [] (Or.inr (by omega))
  unfold isDigitString
  rw [hdata]
  simp only [h1, Bool.and_true]
  cases hE : (Nat.toDigitsCore 10 (n + 1) n []).isEmpty
  · rfl
  · exact absurd (List.isEmpty_iff.mp hE) h2

end Daangn

namespace Daangn

/-- On a number token of the captured shape, `_normalize_amount` cannot hit
its error branch: it returns `str(int(v))` for some natural `v`. -/
theorem normalizeAmount_repr {num : List Char} (u : Option Char)
    (h1 : num ≠ []) (h2 : stripSeps num ≠ [])
    (h3 : (stripSeps num).all isDigitChar = true) :
    ∃ v : Nat, normalizeAmount (String.mk num) (unitStr u) = some (Nat.repr v) := by
  have hne : (String.mk num : String) ≠ "" := by
    intro hcon
    exact h1 (by simpa using congrArg String.data hcon)
  have hie : (stripSeps num).isEmpty = false := by
    cases hE : (stripSeps num).isEmpty
    · rfl
    · exact absurd (List.isEmpty_iff.mp hE) h2
  have hguard : parseDigits? (stripSeps (String.mk num).data) =
      some (digitsVal (stripSeps num)) := by
    show parseDigits? (stripSeps num) = _
    unfold parseDigits?
    rw [if_pos]
    rw [hie, h3]
    rfl
  unfold normalizeAmount
  rw [if_neg hne, hguard]
  cases u with
  | none => exact ⟨_, rfl⟩
  | some c =>
    show ∃ v, (if String.mk [c] = "" then _ else _) = some (Nat.repr v)
    have hcne : (String.mk [c] : String) ≠ "" := by
      intro hcon
      simpa using congrArg String.data hcon
    rw [if_neg hcne]
    exact ⟨_, rfl⟩

/-- Any hit of the keyworded amount search normalizes to a decimal-digits
string. -/
theorem searchAmount_normalize {kws : List (List Char)} {cs num : List Char}
    {u : Option Char} (h : searchAmount kws cs = some (num, u)) :
    ∃ v : Nat, normalizeAmount (String.mk num) (unitStr u) = some (Nat.repr v) ∧
      isDigitString (Nat.repr v) = true := by
  obtain ⟨h1, -, h2, h3⟩ := searchAmount_num cs kws num u h
  obtain ⟨v, hv⟩ := normalizeAmount_repr u h1 h2 h3
  exact ⟨v, hv, isDigitString_repr v⟩

/-- The extractor `_parse_deposit` always returns a non-empty decimal-digits string. -/
theorem parseDeposit_digit (t : String) :
    ∃ s, parseDeposit t = some s ∧ isDigitString s = true := by
  unfold parseDeposit
  rcases hs : searchAmount depositKeywords t.data with _ | ⟨num, u⟩
  · exact ⟨"0", rfl, by decide⟩
  · obtain ⟨v, hv, hd⟩ := searchAmount_normalize hs
    exact ⟨Nat.repr v, hv, hd⟩

/-- Every record `parse_detail` emits is `mkRecord` of its page. -/
theorem parseDetail_eq_mkRecord {tm : String → Bool} {p : DetailPage}
    {r : ListingRecord} (h : parseDetail tm p = some r) : r = mkRecord p := by
  unfold parseDetail at h
  split at h
  · exact absurd h (by simp)
  · split at h
    · exact absurd h (by simp)
    · exact (Option.some.inj h).symm

/-- A digit string is non-empty as a string. -/
theorem isDigitString_ne_empty {s : String} (h : isDigitString s = true) :
    s ≠ "" := by
  intro hcon
  subst hcon
  exact absurd h (by decide)

end Daangn

/-- C8. `_parse_deposit` never fails and never yields an absent value:
any hit of the deposit-keyword pattern captures a number group that is
non-empty and consists only of digits with optional `","`/`"."` separators,
so `_normalize_amount`'s unparsable-number branch is unreachable from it;
consequently `_parse_deposit` always returns a non-empty decimal-digits
string (at least `"0"`), and the `deposit` field of every emitted record is
present (`deposit or None` never turns it into `None`) and is a
decimal-digits string. -/
theorem C8_deposit_total :
    (∀ (cs num : List Char) (u : Option Char),
        searchAmount depositKeywords cs = some (num, u) →
        num ≠ [] ∧
        num.all (fun c => isDigitChar c || c = '.' || c = ',') = true ∧
        normalizeAmount (String.mk num) (unitStr u) ≠ none) ∧
    (∀ t : String, (parseDeposit t).isSome = true ∧
        isDigitString ((parseDeposit t).getD "") = true) ∧
    (∀ (tm : String → Bool) (p : DetailPage) (r : ListingRecord),
        parseDetail tm p = some r →
        r.deposit.isSome = true ∧ isDigitString (r.deposit.getD "") = true) := by
  refine ⟨?_, ?_, ?_⟩
  · intro cs num u h
    obtain ⟨h1, hall, h2, h3⟩ := Daangn.searchAmount_num cs depositKeywords num u h
    obtain ⟨v, hv⟩ := Daangn.normalizeAmount_repr u h1 h2 h3
    exact ⟨h1, hall, by rw [hv]; simp⟩
  · intro t
    obtain ⟨s, hs, hd⟩ := Daangn.parseDeposit_digit t
    rw [hs]
    exact ⟨rfl, hd⟩
  · intro tm p r h
    obtain rfl := Daangn.parseDetail_eq_mkRecord h
    obtain ⟨s, hs, hd⟩ := Daangn.parseDeposit_digit (descOf p)
    have hdep : (mkRecord p).deposit = some s := by
      show (parseDeposit (descOf p)).bind (fun s => if s = "" then none else some s) =
        some s
      rw [hs]
      simp [Daangn.isDigitString_ne_empty hd]
    rw [hdep]
    exact ⟨rfl, hd⟩

/-- Instantiation of `C8_deposit_total`: the deposit pattern hit in
`"보증금 15000원"` normalizes; `_parse_deposit "보증금 2만"` is a present
digit string; the record emitted for `c8page` (description `"보증금 1.5만"`)
carries a present digit-string deposit. -/
theorem C8_witness :
    ("15000".data ≠ [] ∧
      "15000".data.all (fun c => isDigitChar c || c = '.' || c = ',') = true ∧
      normalizeAmount (String.mk "15000".data) (unitStr (some '원')) ≠ none) ∧
    ((parseDeposit "보증금 2만").isSome = true ∧
      isDigitString ((parseDeposit "보증금 2만").getD "") = true) ∧
    (c8rec.deposit.isSome = true ∧ isDigitString (c8rec.deposit.getD "") = true) :=
  ⟨C8_deposit_total.1 "보증금 15000원".data "15000".data (some '원') (by decide),
   C8_deposit_total.2.1 "보증금 2만",
   C8_deposit_total.2.2 defaultTitleMatch c8page c8rec (by decide)⟩

/-- C2 (counterexample). A page whose only price source is the visible
price element `"15,000원"` — which is neither empty nor zero-like — emits a
record whose `rental_price` is the raw `"15,000원"`, not an integer-valued
decimal-digits string, contradicting the claimed invariant. -/
theorem C2_price_counterexample :
    (parseDetail defaultTitleMatch c2page).map ListingRecord.rental_price =
      some (some "15,000원") ∧
    isDigitString "15,000원" = false := by
  decide

/-- C2 (amended). For every emitted record `rental_price` is present, and
it is either a non-negative decimal-digits string (always the case when the
reconciled price was empty or zero-like, via the fallback) or the cleaned
reconciled source price passed through verbatim — which, as the
counterexample shows, need not be digits-only. -/
theorem C2_price_shape (tm : String → Bool) (p : DetailPage) (r : ListingRecord)
    (h : parseDetail tm p = some r) :
    (isZeroLikePrice (reconciledPrice p) = false ∧
      r.rental_price = some (reconciledPrice p)) ∨
    (∃ s, r.rental_price = some s ∧ isDigitString s = true) := by
  obtain rfl := Daangn.parseDetail_eq_mkRecord h
  by_cases hz : isZeroLikePrice (reconciledPrice p) = true
  · right
    have hrp : (mkRecord p).rental_price = fallbackPrice p := by
      show (if isZeroLikePrice (reconciledPrice p) then fallbackPrice p
        else some (reconciledPrice p)) = fallbackPrice p
      rw [if_pos hz]
    rw [hrp]
    unfold fallbackPrice
    rcases hs : searchAmount priceKeywords (descOf p).data with _ | ⟨num, u⟩
    · exact ⟨"0", rfl, by decide⟩
    · obtain ⟨v, hv, hd⟩ := Daangn.searchAmount_normalize hs
      exact ⟨Nat.repr v, hv, hd⟩
  · left
    have hz' : isZeroLikePrice (reconciledPrice p) = false := by
      cases hb : isZeroLikePrice (reconciledPrice p)
      · rfl
      · exact absurd hb hz
    refine ⟨hz', ?_⟩
    show (if isZeroLikePrice (reconciledPrice p) then fallbackPrice p
      else some (reconciledPrice p)) = some (reconciledPrice p)
    rw [if_neg]
    rw [hz']
    exact Bool.false_ne_true

/-- Instantiation of `C2_price_shape` at `c2page`. -/
theorem C2_witness :
    (isZeroLikePrice (reconciledPrice c2page) = false ∧
      c2rec.rental_price = some (reconciledPrice c2page)) ∨
    (∃ s, c2rec.rental_price = some s ∧ isDigitString s = true) :=
  C2_price_shape defaultTitleMatch c2page c2rec (by decide)

/-- C3. For every emitted record, `rental_price` comes from the
description-scan fallback exactly when the reconciled price is empty, `"0"`,
`"0원"` or `"가격 없음"` (keyword `대여비`/`렌탈비`/`대여`, optional colon,
number, optional `만`/`천`/`원` unit, normalized; `"0"` when no match), and
is the reconciled price verbatim otherwise; in particular a page with no
metadata price whose description contains `"대여비 15000원"` emits
`rental_price = "15000"`. -/
theorem C3_price_fallback :
    (∀ (tm : String → Bool) (p : DetailPage) (r : ListingRecord),
        parseDetail tm p = some r →
        r.rental_price =
          if isZeroLikePrice (reconciledPrice p) then fallbackPrice p
          else some (reconciledPrice p)) ∧
    (parseDetail defaultTitleMatch c3page).map ListingRecord.rental_price =
      some (some "15000") := by
  constructor
  · intro tm p r h
    obtain rfl := Daangn.parseDetail_eq_mkRecord h
    rfl
  · decide

/-- Instantiation of `C3_price_fallback` at `c3page` and its emitted
record. -/
theorem C3_witness :
    c3rec.rental_price =
      if isZeroLikePrice (reconciledPrice c3page) then fallbackPrice c3page
      else some (reconciledPrice c3page) :=
  C3_price_fallback.1 defaultTitleMatch c3page c3rec (by decide)
